import Mathlib

/-!
Verification of the download core of `operon_analysis`
(`analysis/download.py`): path utilities, the seed-discovery algorithm
`find_successful_seed_dirs`, the deduplicating download queue, and the
two-phase (parallel then serial retry) download orchestration in
`download_all_needed_files`.

Strings are modelled by Lean `String` (a structure over `List Char`);
the blob store client (`analysis.storage.CloudStorage`, not part of the
analysed sources) is modelled from the spec as a capability record.
Fetch outcomes (success/failure of each transfer attempt) are supplied
as Boolean oracles, one per phase, so that theorems quantify over every
possible outcome of every attempt.
-/

/-! ## Path/string utilities -/

/-- Does `s` start with `p`?  Models Python `str.startswith`. -/
def strStartsWith (s p : String) : Bool :=
  p.data.isPrefixOf s.data

/-- Does `s` end with `p`?  Models Python `str.endswith`. -/
def strEndsWith (s p : String) : Bool :=
  p.data.reverse.isPrefixOf s.data.reverse

/-- Model of `removeprefix` in `analysis/download.py` (like Python 3.9
`str.removeprefix`): drop `p` from the front of `s` when it is a prefix. -/
def removeprefix (s p : String) : String :=
  if strStartsWith s p then String.mk (s.data.drop p.data.length) else s

/-- Model of POSIX `os.path.join` on two components: an absolute second
component wins; otherwise a separator is inserted unless the first
component is empty or already ends with the separator. -/
def joinPath (a b : String) : String :=
  if strStartsWith b "/" then b
  else if a = "" || strEndsWith a "/" then a ++ b
  else a ++ "/" ++ b

/-! ## Decimal formatting (Python `f-string` `%06d` style) -/

/-- The character for a decimal digit `d < 10`. -/
def digitChar (d : Nat) : Char :=
  Char.ofNat (48 + d)

/-- Decimal digits of `n`, most significant first, prepended to `acc`;
fuel-based structural recursion (`fuel = n + 1` always suffices since
`n / 10 < n` for `n ≥ 10`). -/
def natDigitsCore : Nat → Nat → List Char → List Char
  | 0, _, acc => acc
  | fuel + 1, n, acc =>
    let acc2 := digitChar (n % 10) :: acc
    if n < 10 then acc2 else natDigitsCore fuel (n / 10) acc2

/-- Decimal representation of a natural number. -/
def natRepr (n : Nat) : String :=
  String.mk (natDigitsCore (n + 1) n [])

/-- Left-pad `s` with zero characters to width `w`. -/
def padZeros (s : String) (w : Nat) : String :=
  String.mk (List.replicate (w - s.data.length) '0') ++ s

/-- Model of Python `f'{n:06d}'`: zero-pad to overall width 6; for a
negative number the sign occupies one of the six columns. -/
def zeroPad6 (n : Int) : String :=
  if n < 0 then "-" ++ padZeros (natRepr n.natAbs) 5
  else padZeros (natRepr n.toNat) 6

/-! ## The marker regex

`find_successful_seed_dirs` compiles `re.escape(pre) + '(.*)generation_'`
followed by six digits (the `str`-pattern class backslash-d) and takes
group 1 of an anchored match.  Faithful semantics of that pattern:
the class backslash-d matches every Unicode decimal digit (category Nd),
not only ASCII digits; the greedy dot of `(.*)` matches any character
except the newline, so the group cannot span a newline; and greediness
means the group ends at the LAST position, within the newline-free
prefix, where the literal `generation_` followed by six decimal digits
occurs.  `matchGroup1` below returns `none` exactly when the Python
code would raise (indexing the `None` returned by `re.match`). -/

/-- The codepoint ranges of the Unicode decimal digits (category Nd):
exactly the characters matched by the `str`-pattern class backslash-d of
Python `re`. -/
def pyDigitRanges : List (Nat × Nat) :=
  [ (48, 57), (1632, 1641), (1776, 1785), (1984, 1993), (2406, 2415),
    (2534, 2543), (2662, 2671), (2790, 2799), (2918, 2927), (3046, 3055),
    (3174, 3183), (3302, 3311), (3430, 3439), (3558, 3567), (3664, 3673),
    (3792, 3801), (3872, 3881), (4160, 4169), (4240, 4249), (6112, 6121),
    (6160, 6169), (6470, 6479), (6608, 6617), (6784, 6793), (6800, 6809),
    (6992, 7001), (7088, 7097), (7232, 7241), (7248, 7257), (42528,
    42537), (43216, 43225), (43264, 43273), (43472, 43481), (43504,
    43513), (43600, 43609), (44016, 44025), (65296, 65305), (66720,
    66729), (68912, 68921), (69734, 69743), (69872, 69881), (69942,
    69951), (70096, 70105), (70384, 70393), (70736, 70745), (70864,
    70873), (71248, 71257), (71360, 71369), (71472, 71481), (71904,
    71913), (72016, 72025), (72784, 72793), (73040, 73049), (73120,
    73129), (92768, 92777), (92864, 92873), (93008, 93017), (120782,
    120831), (123200, 123209), (123632, 123641), (125264, 125273),
    (130032, 130041) ]

/-- Does `c` match the regex class backslash-d: is it a Unicode decimal
digit? -/
def isPyDigit (c : Char) : Bool :=
  pyDigitRanges.any (fun r => r.1 ≤ c.toNat && c.toNat ≤ r.2)

/-- Does `l` begin with the literal `generation_` followed by six
decimal-digit characters (Unicode, as matched by backslash-d)? -/
def genMatchAt (l : List Char) : Bool :=
  "generation_".data.isPrefixOf l
    && decide (((l.drop 11).take 6).length = 6)
    && ((l.drop 11).take 6).all isPyDigit

/-- The group-1 text of the greedy match: the part of `l` strictly
before the last position `i` such that `genMatchAt` holds at `i` and no
newline occurs before `i` (the dot of `(.*)` cannot match a newline), or
`none` when no such position exists. -/
def lastGenSplit : List Char → Option (List Char)
  | [] => none
  | c :: rest =>
    match (if c = '\n' then none else lastGenSplit rest) with
    | some s => some (c :: s)
    | none => if genMatchAt (c :: rest) then some [] else none

/-- Group 1 of the anchored match of the discovery regex against `name`:
the text between the storage-root `pre` and the last reachable
`generation_` + six digits occurrence.  `none` models the raised
`TypeError` when `re.match` returns `None` (no occurrence, or every
occurrence lies beyond a newline). -/
def matchGroup1 (pre name : String) : Option String :=
  if strStartsWith name pre then
    (lastGenSplit (name.data.drop pre.data.length)).map String.mk
  else none

/-! ## Constants of `analysis/download.py` -/

/-- Default variant name. -/
def VARIANT : String := "wildtype_000000"

/-- Relative path of the workflow metadata file. -/
def METADATA_PATHNAME : String := joinPath "metadata" "metadata.json"

/-- Per-variant simulation-data file, fetched once per campaign. -/
def SIMDATA_MODIFIED_SUBPATH : String := joinPath "kb" "simData_Modified.cPickle"

/-- The fixed per-generation manifest of needed files. -/
def SIM_FILES : List String :=
  [ "Mass/attributes.json",
    "Mass/cellMass",
    "Mass/dryMass",
    "Main/attributes.json",
    "Main/time",
    "MonomerCounts/attributes.json",
    "MonomerCounts/monomerCounts" ]

/-! ## The blob store -/

/-- Modelled from the spec: the Blob Store Adapter
(`analysis.storage.CloudStorage`, whose code is not among the analysed
sources).  `storageRoot` is its `path_prefix` (the fixed storage path
under which relative paths resolve); `objects` is the finite set of full
object names backing `listByPrefix`; `listStar` is the wildcard-style
`listImmediateChildren` listing used with `star=True`, returning full
object names one path segment below the queried path. -/
structure CloudStorage where
  storageRoot : String
  objects : List String
  listStar : String → List String

/-- Modelled from the spec: `listByPrefix` — all objects whose full name
starts with `path_prefix ++ rel` (a probe is a prefix listing, not a
point existence check). -/
def CloudStorage.list_blobs (st : CloudStorage) (rel : String) : List String :=
  st.objects.filter (fun n => strStartsWith n (st.storageRoot ++ rel))

/-! ## Downloader state -/

/-- Model of a `DownloadSims` object: the mutable attributes of the
class, plus two trace fields (`attempted`, `downloaded`) recording the
observable transfer activity, in order, so that theorems can speak about
which transfers were attempted and which succeeded. -/
structure DownloadSims where
  variant_name : String
  local_dir : String
  queue : List String
  count : Nat
  generations : Int
  init_sims : Int
  seed : Int
  attempted : List String
  downloaded : List String
deriving DecidableEq, Repr

/-- A fresh `DownloadSims` as built by `__init__`: empty queue, zero
counters, default metadata fields.  The storage client itself lives in
`World` since its construction is external to the analysed sources. -/
def mkDownloadSims (wcm_workflow_name : String) (variant_name : String)
    (local_dir : String) : DownloadSims :=
  { variant_name := variant_name
    local_dir := joinPath (if local_dir = "" then wcm_workflow_name else local_dir) ""
    queue := []
    count := 0
    generations := 0
    init_sims := 0
    seed := 0
    attempted := []
    downloaded := [] }

/-- Parsed fields of `metadata.json`. -/
structure Metadata where
  generations : Int
  init_sims : Int
  seed : Int
deriving DecidableEq, Repr

/-- The environment of one run: the store, the success/failure outcome of
each transfer attempt in phase 1 (`fetch1`, also used for the direct
metadata transfer, each path's first attempt) and in the serial retry
phase (`fetch2`), and the parse result of the downloaded metadata file
(`none` models unparseable JSON or a missing integer field). -/
structure World where
  store : CloudStorage
  fetch1 : String → Bool
  fetch2 : String → Bool
  metaParse : Option Metadata

/-- Model of `DownloadSims.download_file`: one transfer attempt of
`path`.  On success the transferred-file counter is incremented; the
attempt is always recorded.  The returned Boolean is `false` when the
storage call raised. -/
def download_file (fetch : String → Bool) (path : String)
    (st : DownloadSims) : DownloadSims × Bool :=
  if fetch path then
    ({ st with count := st.count + 1
               attempted := st.attempted ++ [path]
               downloaded := st.downloaded ++ [path] }, true)
  else
    ({ st with attempted := st.attempted ++ [path] }, false)

/-- Model of `DownloadSims.queue_files`: insert `sub_dir/p` for each `p`;
an already-present key is left untouched (Python dict assignment keeps
the original insertion position), a new key is appended at the end. -/
def queue_files (sub_dir : String) (relative_paths : List String)
    (st : DownloadSims) : DownloadSims :=
  { st with queue :=
      relative_paths.foldl (fun q p =>
        if q.contains (joinPath sub_dir p) then q
        else q ++ [joinPath sub_dir p]) st.queue }

/-- One drain pass over the snapshot `order` of paths: attempt each path
once with outcome oracle `fetch`; a success removes the path from the
live queue.  Both download phases are instances of this pass: removals
of distinct keys commute, so the completion order of the parallel phase
only permutes `order`. -/
def drain (fetch : String → Bool) (order : List String)
    (st : DownloadSims) : DownloadSims :=
  order.foldl (fun s path =>
    match download_file fetch path s with
    | (s2, true) => { s2 with queue := s2.queue.erase path }
    | (s2, false) => s2) st

/-- Model of `DownloadSims.parallel_download`: every queued path is
submitted once; results are processed in completion order `order`, an
arbitrary permutation of the submitted snapshot. -/
def parallel_download (fetch : String → Bool) (order : List String)
    (st : DownloadSims) : DownloadSims :=
  drain fetch order st

/-- Model of `DownloadSims.serial_download`: iterate a snapshot
(`dict(self.queue)`) of the live queue in order, removing successes. -/
def serial_download (fetch : String → Bool) (st : DownloadSims) : DownloadSims :=
  drain fetch st.queue st

/-! ## Seed discovery -/

/-- The completion-marker subpath probed below each candidate seed
directory: `generation_<max_gen as %06d>/000000/simOut/Daughter1_inherited_state.cPickle`. -/
def markerPath (max_gen : Int) : String :=
  joinPath (joinPath (joinPath ("generation_" ++ zeroPad6 max_gen) "000000")
    "simOut") "Daughter1_inherited_state.cPickle"

/-- The candidate seed paths enumerated by `find_successful_seed_dirs`:
the `variant/0*` star listing with the storage root stripped from each
returned name. -/
def candidates (variant_name : String) (st : CloudStorage) : List String :=
  (st.listStar (joinPath variant_name "0")).map (fun n => removeprefix n st.storageRoot)

/-- Apply `matchGroup1 pre` to every name of one probe listing;
`none` when any extraction fails (the Python comprehension raises). -/
def extractAll (pre : String) : List String → Option (List String)
  | [] => some []
  | n :: ns =>
    match matchGroup1 pre n, extractAll pre ns with
    | some d, some ds => some (d :: ds)
    | _, _ => none

/-- Run `extractAll` over every probe listing. -/
def extractIters (pre : String) : List (List String) → Option (List (List String))
  | [] => some []
  | it :: its =>
    match extractAll pre it, extractIters pre its with
    | some d, some ds => some (d :: ds)
    | _, _ => none

/-- Model of `DownloadSims.find_successful_seed_dirs`: list candidate
seed dirs under `variant/0`, probe each for the completion marker of
generation `max_gen`, extract the `variant/seed/` part of each matched
object name with the discovery regex, and flatten in seed enumeration
order.  `none` models the raised `TypeError` when some matched name does
not match the regex. -/
def find_successful_seed_dirs (variant_name : String) (st : CloudStorage)
    (max_gen : Int) : Option (List String) :=
  let pre := st.storageRoot
  let seed_paths := candidates variant_name st
  let marker := markerPath max_gen
  let iterators := seed_paths.map (fun seed => st.list_blobs (joinPath seed marker))
  (extractIters pre iterators).map List.flatten

/-! ## Orchestration -/

/-- The ways `download_all_needed_files` can terminate abnormally. -/
inductive RunError where
  | metaTransfer
  | metaMalformed
  | regexNoMatch
deriving DecidableEq, Repr

/-- Model of `DownloadSims.download_metadata`: transfer the metadata file
directly (not through the queue), parse it, store the three integer
fields, and return the generation count.  A failed transfer or parse
propagates as an error carrying the state at the point of abort. -/
def download_metadata (w : World) (st : DownloadSims) :
    Except (RunError × DownloadSims) (Int × DownloadSims) :=
  match download_file w.fetch1 METADATA_PATHNAME st with
  | (st1, false) => .error (RunError.metaTransfer, st1)
  | (st1, true) =>
    match w.metaParse with
    | none => .error (RunError.metaMalformed, st1)
    | some m =>
      .ok (m.generations,
        { st1 with generations := m.generations
                   init_sims := m.init_sims
                   seed := m.seed })

/-- Model of Python `range(n)` over an integer bound. -/
def pyRange (n : Int) : List Int :=
  (List.range n.toNat).map Int.ofNat

/-- The per-generation `simOut` directory of a seed directory:
`seed_dir/generation_<gen as %06d>/000000/simOut`. -/
def genSimOut (seed_dir : String) (gen : Int) : String :=
  joinPath (joinPath (joinPath seed_dir ("generation_" ++ zeroPad6 gen))
    "000000") "simOut"

/-- The queue-building first half of `download_all_needed_files`
(lines up to the phase calls): fetch and parse metadata, queue the
per-variant simData file, discover seed dirs at generation
`generations - 1`, and queue `SIM_FILES` for every discovered seed dir
and every generation `0 ≤ gen < generations`. -/
def build_queue (w : World) (st : DownloadSims) :
    Except (RunError × DownloadSims) (Int × DownloadSims) :=
  match download_metadata w st with
  | .error e => .error e
  | .ok (generations, st1) =>
    let st2 := queue_files st1.variant_name [SIMDATA_MODIFIED_SUBPATH] st1
    match find_successful_seed_dirs st2.variant_name w.store (generations - 1) with
    | none => .error (RunError.regexNoMatch, st2)
    | some seed_dirs =>
      let st3 := seed_dirs.foldl (fun s seed_dir =>
        (pyRange generations).foldl (fun s2 gen =>
          queue_files (genSimOut seed_dir gen) SIM_FILES s2) s) st2
      .ok (generations, st3)

/-- Model of `DownloadSims.download_all_needed_files`: build the queue,
run the parallel phase (completion order = submission order; removals of
distinct keys commute so any completion order yields the same state),
then the serial retry phase, and return the transferred-file count. -/
def download_all_needed_files (w : World) (st : DownloadSims) :
    Except (RunError × DownloadSims) (Nat × DownloadSims) :=
  match build_queue w st with
  | .error e => .error e
  | .ok (_, st3) =>
    let st4 := parallel_download w.fetch1 st3.queue st3
    let st5 := serial_download w.fetch2 st4
    .ok (st5.count, st5)

/-! ## Statement apparatus and shared concrete scenarios -/

/-- The folded insertion underlying `queue_files`. -/
def insertKey (q : List String) (k : String) : List String :=
  if q.contains k then q else q ++ [k]

/-- Shared concrete scenario for queue/retry witnesses: a three-path
queue where `b` succeeds in Phase 1, `c` fails in Phase 1 and succeeds
in Phase 2, and `a` fails both attempts. -/
def exQueueState : DownloadSims :=
  { mkDownloadSims "wf" VARIANT "" with queue := ["a", "b", "c"] }

/-- Phase-1 outcomes of the shared scenario. -/
def exF1 : String → Bool := fun s => s == "b"

/-- Phase-2 outcomes of the shared scenario. -/
def exF2 : String → Bool := fun s => s == "c"

/-- Completion order of the shared scenario's parallel phase. -/
def exOrder : List String := ["c", "a", "b"]

/-- Statement predicate: no occurrence of the literal `generation_`
begins strictly after position `k` of `l` (bounded, hence decidable; a
position past the end trivially has none).  Banning the eleven-character
literal itself bans every `generation_` + six digits match after `k`
under any digit semantics. -/
def cleanAfter (k : Nat) (l : List Char) : Bool :=
  (List.range (l.length + 1)).all
    (fun j => if k < j then !("generation_".data.isPrefixOf (l.drop j)) else true)

/-- Statement predicate (decidable): `n` has the canonical form
storage-root + seed-directory `c` + marker path + deeper suffix, the
seed-directory part is newline-free (so the greedy group may reach the
marker), and no stray `generation_` literal occurs after the
seed-directory part. -/
def canonicalName (root c : String) (mg : Int) (n : String) : Bool :=
  let t := n.data.drop (root.data.length + c.data.length + (markerPath mg).data.length)
  decide (n.data = root.data ++ (c.data ++ ((markerPath mg).data ++ t)))
    && cleanAfter c.data.length (c.data ++ ((markerPath mg).data ++ t))
    && !(c.data.contains '\n')

/-- A fresh downloader for the concrete scenarios. -/
def exFresh : DownloadSims := mkDownloadSims "wf" VARIANT ""

/-- Marker object of seed `000000` at generation 1. -/
def exObj1 : String :=
  "B/WCM/wf/wildtype_000000/000000/generation_000001/000000/simOut/Daughter1_inherited_state.cPickle"

/-- Marker object of seed `000001` at generation 1. -/
def exObj2 : String :=
  "B/WCM/wf/wildtype_000000/000001/generation_000001/000000/simOut/Daughter1_inherited_state.cPickle"

/-- Stray object of seed `000001` at generation 0 only (no generation-1
marker). -/
def exObj3 : String :=
  "B/WCM/wf/wildtype_000000/000001/generation_000000/000000/simOut/Daughter1_inherited_state.cPickle"

/-- Concrete store: two seed directories, both with generation-1 markers. -/
def exStore : CloudStorage :=
  { storageRoot := "B/WCM/wf/"
    objects := [exObj1, exObj2]
    listStar := fun rel =>
      if rel = "wildtype_000000/0" then
        ["B/WCM/wf/wildtype_000000/000000/", "B/WCM/wf/wildtype_000000/000001/"]
      else [] }

/-- Concrete store: seed `000000` has the generation-1 marker, seed
`000001` only has a generation-0 object. -/
def exStore2 : CloudStorage :=
  { exStore with objects := [exObj1, exObj3] }

/-- Concrete store with no seed directories at all. -/
def exNoSeedStore : CloudStorage :=
  { storageRoot := "B/WCM/wf/", objects := [], listStar := fun _ => [] }

/-- Probed object whose seed segment contains a newline: the greedy
group of the discovery regex cannot span it, so `re.match` fails. -/
def exNlObj : String :=
  "B/WCM/wf/bad\nseed/generation_000001/000000/simOut/Daughter1_inherited_state.cPickle"

/-- Concrete store holding only the newline-tainted object. -/
def exNlStore : CloudStorage :=
  { storageRoot := "B/WCM/wf/", objects := [exNlObj], listStar := fun _ => [] }

/-- Concrete world over `exStore`: metadata reports two generations, all
transfers succeed. -/
def exWorld : World :=
  { store := exStore
    fetch1 := fun _ => true
    fetch2 := fun _ => true
    metaParse := some { generations := 2, init_sims := 1, seed := 0 } }

/-- Concrete world with an empty discovery result. -/
def exNoSeedWorld : World := { exWorld with store := exNoSeedStore }

/-- Concrete world whose metadata transfer fails. -/
def exMetaFailWorld : World :=
  { exWorld with fetch1 := fun p => !(p == METADATA_PATHNAME) }

/-- Concrete world whose metadata file is malformed. -/
def exMetaBadWorld : World := { exWorld with metaParse := none }

/-! ## Lemmas about one drain pass -/

/-- Unfolding a drain pass over one successful path. -/
theorem drain_cons_true (fetch : String → Bool) (a : String) (l : List String)
    (st : DownloadSims) (h : fetch a = true) :
    drain fetch (a :: l) st = drain fetch l
      { st with queue := st.queue.erase a
                count := st.count + 1
                attempted := st.attempted ++ [a]
                downloaded := st.downloaded ++ [a] } := by
  simp [drain, List.foldl_cons, download_file, h]

/-- Unfolding a drain pass over one failed path. -/
theorem drain_cons_false (fetch : String → Bool) (a : String) (l : List String)
    (st : DownloadSims) (h : fetch a = false) :
    drain fetch (a :: l) st = drain fetch l
      { st with attempted := st.attempted ++ [a] } := by
  simp [drain, List.foldl_cons, download_file, h]

/-- The queue evolution of a drain pass, isolated from the other fields. -/
theorem drain_queue (fetch : String → Bool) (order : List String)
    (st : DownloadSims) :
    (drain fetch order st).queue =
      order.foldl (fun q p => if fetch p then q.erase p else q) st.queue := by
  induction order generalizing st with
  | nil => rfl
  | cons a l ih =>
    cases h : fetch a with
    | true => rw [drain_cons_true fetch a l st h, List.foldl_cons, ih]; simp [h]
    | false => rw [drain_cons_false fetch a l st h, List.foldl_cons, ih]; simp [h]

/-- A drain pass increments the transferred-file counter once per success. -/
theorem drain_count (fetch : String → Bool) (order : List String)
    (st : DownloadSims) :
    (drain fetch order st).count = st.count + order.countP fetch := by
  induction order generalizing st with
  | nil => simp [drain]
  | cons a l ih =>
    cases h : fetch a with
    | true =>
      rw [drain_cons_true fetch a l st h, ih, List.countP_cons]
      simp [h, Nat.add_comm, Nat.add_assoc, Nat.add_left_comm]
    | false =>
      rw [drain_cons_false fetch a l st h, ih, List.countP_cons]
      simp [h]

/-- A drain pass attempts exactly the paths of its snapshot, in order. -/
theorem drain_attempted (fetch : String → Bool) (order : List String)
    (st : DownloadSims) :
    (drain fetch order st).attempted = st.attempted ++ order := by
  induction order generalizing st with
  | nil => simp [drain]
  | cons a l ih =>
    cases h : fetch a with
    | true => rw [drain_cons_true fetch a l st h, ih]; simp
    | false => rw [drain_cons_false fetch a l st h, ih]; simp

/-- A drain pass downloads exactly the successful paths of its snapshot. -/
theorem drain_downloaded (fetch : String → Bool) (order : List String)
    (st : DownloadSims) :
    (drain fetch order st).downloaded = st.downloaded ++ order.filter fetch := by
  induction order generalizing st with
  | nil => simp [drain]
  | cons a l ih =>
    cases h : fetch a with
    | true => rw [drain_cons_true fetch a l st h, ih, List.filter_cons]; simp [h]
    | false => rw [drain_cons_false fetch a l st h, ih, List.filter_cons]; simp [h]

/-- Conditional erasure along a list equals plain erasure along its
successes. -/
theorem foldl_eraseIf_eq (fetch : String → Bool) (order : List String) :
    ∀ q : List String,
      order.foldl (fun q2 p => if fetch p then q2.erase p else q2) q
        = (order.filter fetch).foldl (fun q2 p => q2.erase p) q := by
  induction order with
  | nil => intro q; rfl
  | cons a l ih =>
    intro q
    cases h : fetch a with
    | true => simp only [List.foldl_cons, List.filter_cons, h, if_pos, ih]
    | false =>
      simp only [List.foldl_cons, List.filter_cons, h]
      simpa using ih q

/-- Erasing the keys `xs` one by one from a duplicate-free list `q`
filters them out. -/
theorem foldl_erase_eq_filter (xs : List String) :
    ∀ q : List String, q.Nodup →
      xs.foldl (fun q2 p => q2.erase p) q = q.filter (fun p => !xs.contains p) := by
  induction xs with
  | nil => intro q _; simp
  | cons x l ih =>
    intro q hq
    have h1 : q.erase x = q.filter (fun p => p != x) := hq.erase_eq_filter x
    calc (x :: l).foldl (fun q2 p => q2.erase p) q
        = l.foldl (fun q2 p => q2.erase p) (q.erase x) := by
          simp [List.foldl_cons]
      _ = (q.erase x).filter (fun p => !l.contains p) := ih _ (hq.erase x)
      _ = q.filter (fun p => !(x :: l).contains p) := by
          rw [h1, List.filter_filter]
          refine List.filter_congr fun p _ => ?_
          by_cases hpx : p = x
          · subst hpx; simp [List.contains]
          · simp [List.contains, hpx, bne_iff_ne, Ne.symm, beq_iff_eq]

/-- The queue left by a drain pass over a permutation of a duplicate-free
queue: exactly the failed paths, in their original order. -/
theorem drain_queue_filter (fetch : String → Bool) (order : List String)
    (st : DownloadSims) (hnd : st.queue.Nodup) (hperm : order.Perm st.queue) :
    (drain fetch order st).queue = st.queue.filter (fun p => !fetch p) := by
  rw [drain_queue, foldl_eraseIf_eq, foldl_erase_eq_filter _ _ hnd]
  refine List.filter_congr fun p hp => ?_
  cases h : fetch p with
  | true =>
    have hmem : p ∈ order := hperm.mem_iff.mpr hp
    have helem : List.elem p (List.filter fetch order) = true :=
      List.elem_iff.mpr (List.mem_filter.mpr ⟨hmem, h⟩)
    simp only [h, List.contains, helem, Bool.not_true]
  | false =>
    have hmem : p ∉ order.filter fetch := by
      rintro hin
      rcases List.mem_filter.mp hin with ⟨-, hf⟩
      rw [h] at hf
      exact Bool.false_ne_true hf
    have : List.elem p (order.filter fetch) = false := by
      cases helem : List.elem p (order.filter fetch) with
      | false => rfl
      | true => exact absurd (List.elem_iff.mp helem) hmem
    simp [h, List.contains, this]

/-! ## Lemmas about the queue builder -/

/-- `queue_files` is a fold of `insertKey` over the joined keys. -/
theorem queue_files_queue (sub_dir : String) (ps : List String)
    (st : DownloadSims) :
    (queue_files sub_dir ps st).queue =
      (ps.map (joinPath sub_dir)).foldl insertKey st.queue := by
  simp only [queue_files, List.foldl_map, insertKey]

/-- Requeueing keys that are all already pending is a no-op. -/
theorem queue_files_of_mem (sub_dir : String) (ps : List String)
    (st : DownloadSims) (h : ∀ p ∈ ps, joinPath sub_dir p ∈ st.queue) :
    queue_files sub_dir ps st = st := by
  have aux : ∀ (l : List String) (q : List String),
      (∀ p ∈ l, joinPath sub_dir p ∈ q) →
      l.foldl (fun q2 p =>
        if q2.contains (joinPath sub_dir p) then q2
        else q2 ++ [joinPath sub_dir p]) q = q := by
    intro l
    induction l with
    | nil => intro q _; rfl
    | cons a l2 ih =>
      intro q hq
      have ha : q.contains (joinPath sub_dir a) = true :=
        List.elem_iff.mpr (hq a (List.mem_cons_self a l2))
      simp only [List.foldl_cons, List.contains] at ha ⊢
      rw [if_pos ha]
      exact ih q fun p hp => hq p (List.mem_cons_of_mem a hp)
  cases st
  simp only [queue_files]
  congr 1
  exact aux ps _ h

/-! ## Claim C1: partition of the queue after Phase 1 + Phase 2 -/

/-- C1: for every initial duplicate-free queue and every outcome of each
fetch attempt (and every completion order of the parallel phase), after
`parallel_download` then `serial_download` the remaining queue is exactly
the originally queued paths whose two attempts both failed, each kept
once in its original position: a path is removed iff some attempt
succeeded, no path is lost without a success, none is duplicated, and no
new path appears. -/
theorem queue_partition_after_phases (f1 f2 : String → Bool)
    (order : List String) (st : DownloadSims)
    (hnd : st.queue.Nodup) (hperm : order.Perm st.queue) :
    (serial_download f2 (parallel_download f1 order st)).queue
        = st.queue.filter (fun p => !f1 p && !f2 p)
    ∧ (∀ p, p ∈ (serial_download f2 (parallel_download f1 order st)).queue ↔
        p ∈ st.queue ∧ f1 p = false ∧ f2 p = false)
    ∧ (serial_download f2 (parallel_download f1 order st)).queue.Nodup
    ∧ (serial_download f2 (parallel_download f1 order st)).queue.Sublist st.queue := by
  have h4 : (parallel_download f1 order st).queue
      = st.queue.filter (fun p => !f1 p) :=
    drain_queue_filter f1 order st hnd hperm
  have hnd4 : (parallel_download f1 order st).queue.Nodup := by
    rw [h4]; exact hnd.filter _
  have h5 : (serial_download f2 (parallel_download f1 order st)).queue
      = st.queue.filter (fun p => !f1 p && !f2 p) := by
    have := drain_queue_filter f2 (parallel_download f1 order st).queue
      (parallel_download f1 order st) hnd4 (List.Perm.refl _)
    rw [serial_download, this, h4, List.filter_filter]
    refine List.filter_congr fun p _ => ?_
    cases f1 p <;> cases f2 p <;> rfl
  refine ⟨h5, fun p => ?_, ?_, ?_⟩
  · rw [h5, List.mem_filter]
    constructor
    · rintro ⟨hmem, hb⟩
      refine ⟨hmem, ?_, ?_⟩ <;> revert hb <;> cases f1 p <;> cases f2 p <;> simp
    · rintro ⟨hmem, h1, h2⟩
      exact ⟨hmem, by rw [h1, h2]; rfl⟩
  · rw [h5]; exact hnd.filter _
  · rw [h5]; exact List.filter_sublist _

/-- Witness for C1 at the shared concrete scenario. -/
theorem queue_partition_after_phases_witness :
    (exQueueState.queue.Nodup ∧ exOrder.Perm exQueueState.queue)
    ∧ ((serial_download exF2 (parallel_download exF1 exOrder exQueueState)).queue
        = exQueueState.queue.filter (fun p => !exF1 p && !exF2 p)
      ∧ (∀ p, p ∈ (serial_download exF2 (parallel_download exF1 exOrder exQueueState)).queue ↔
          p ∈ exQueueState.queue ∧ exF1 p = false ∧ exF2 p = false)
      ∧ (serial_download exF2 (parallel_download exF1 exOrder exQueueState)).queue.Nodup
      ∧ (serial_download exF2 (parallel_download exF1 exOrder exQueueState)).queue.Sublist
          exQueueState.queue) :=
  ⟨⟨by decide, by decide⟩,
    queue_partition_after_phases exF1 exF2 exOrder exQueueState (by decide) (by decide)⟩

/-! ## Claim C4: at most two attempts per path, one success counted -/

/-- C4: each originally queued path is attempted once in Phase 1 and
exactly once more in Phase 2 iff its Phase-1 attempt failed (so at most
twice in total); a path that fails in Phase 1 and succeeds on the retry
is counted exactly once among the successful transfers and leaves the
queue. -/
theorem retry_at_most_twice (f1 f2 : String → Bool) (order : List String)
    (st : DownloadSims) (hnd : st.queue.Nodup) (hperm : order.Perm st.queue)
    (p : String) (hp : p ∈ st.queue) :
    ((serial_download f2 (parallel_download f1 order st)).attempted.count p
        = st.attempted.count p + (if f1 p = true then 1 else 2))
    ∧ (f1 p = false → f2 p = true →
        (serial_download f2 (parallel_download f1 order st)).downloaded.count p
            = st.downloaded.count p + 1
        ∧ p ∉ (serial_download f2 (parallel_download f1 order st)).queue) := by
  have h4q : (parallel_download f1 order st).queue
      = st.queue.filter (fun q => !f1 q) :=
    drain_queue_filter f1 order st hnd hperm
  have hnd4 : (parallel_download f1 order st).queue.Nodup := by
    rw [h4q]; exact hnd.filter _
  have h5a : (serial_download f2 (parallel_download f1 order st)).attempted
      = st.attempted ++ order ++ (parallel_download f1 order st).queue := by
    rw [serial_download, drain_attempted, parallel_download, drain_attempted]
  have h5d : (serial_download f2 (parallel_download f1 order st)).downloaded
      = st.downloaded ++ order.filter f1
          ++ (parallel_download f1 order st).queue.filter f2 := by
    rw [serial_download, drain_downloaded, parallel_download, drain_downloaded]
  have hordnd : order.Nodup := hperm.symm.nodup hnd
  have hcord : order.count p = 1 :=
    List.count_eq_one_of_mem hordnd (hperm.mem_iff.mpr hp)
  constructor
  · rw [h5a, List.count_append, List.count_append, hcord]
    cases h1 : f1 p with
    | true =>
      have : p ∉ (parallel_download f1 order st).queue := by
        rw [h4q]
        intro hin
        rcases List.mem_filter.mp hin with ⟨-, hb⟩
        rw [h1] at hb
        exact Bool.false_ne_true (by simpa using hb)
      rw [List.count_eq_zero.mpr this]
      simp
    | false =>
      have hin : p ∈ (parallel_download f1 order st).queue := by
        rw [h4q]
        exact List.mem_filter.mpr ⟨hp, by rw [h1]; rfl⟩
      rw [List.count_eq_one_of_mem hnd4 hin]
      simp [Nat.add_assoc]
  · intro h1 h2
    constructor
    · rw [h5d, List.count_append, List.count_append]
      have hz : p ∉ order.filter f1 := by
        intro hin
        rcases List.mem_filter.mp hin with ⟨-, hb⟩
        rw [h1] at hb
        exact Bool.false_ne_true hb
      have hin2 : p ∈ (parallel_download f1 order st).queue.filter f2 := by
        refine List.mem_filter.mpr ⟨?_, h2⟩
        rw [h4q]
        exact List.mem_filter.mpr ⟨hp, by rw [h1]; rfl⟩
      rw [List.count_eq_zero.mpr hz,
        List.count_eq_one_of_mem (hnd4.filter _) hin2]
    · have h5q := drain_queue_filter f2 (parallel_download f1 order st).queue
        (parallel_download f1 order st) hnd4 (List.Perm.refl _)
      rw [serial_download, h5q]
      intro hin
      rcases List.mem_filter.mp hin with ⟨-, hb⟩
      rw [h2] at hb
      exact Bool.false_ne_true (by simpa using hb)

/-- Witness for C4: in the shared scenario, path `c` fails Phase 1 and
succeeds in Phase 2, is attempted twice, and is counted once. -/
theorem retry_at_most_twice_witness :
    (exQueueState.queue.Nodup ∧ exOrder.Perm exQueueState.queue
      ∧ "c" ∈ exQueueState.queue)
    ∧ (((serial_download exF2 (parallel_download exF1 exOrder exQueueState)).attempted.count "c"
        = exQueueState.attempted.count "c" + (if exF1 "c" = true then 1 else 2))
      ∧ (exF1 "c" = false → exF2 "c" = true →
          (serial_download exF2 (parallel_download exF1 exOrder exQueueState)).downloaded.count "c"
              = exQueueState.downloaded.count "c" + 1
          ∧ "c" ∉ (serial_download exF2 (parallel_download exF1 exOrder exQueueState)).queue)) :=
  ⟨⟨by decide, by decide, by decide⟩,
    retry_at_most_twice exF1 exF2 exOrder exQueueState (by decide) (by decide) "c" (by decide)⟩

/-! ## Claim C5: idempotent queue insertion -/

/-- C5: queueing paths whose joined keys are already pending leaves the
whole downloader state unchanged — the queue keeps its size and every
existing entry keeps its original insertion position. -/
theorem queue_files_idempotent (st : DownloadSims) (sub_dir : String)
    (relative_paths : List String)
    (h : ∀ p ∈ relative_paths, joinPath sub_dir p ∈ st.queue) :
    queue_files sub_dir relative_paths st = st :=
  queue_files_of_mem sub_dir relative_paths st h

/-- Witness for C5: re-queueing the already-present key `x/a` is a no-op. -/
theorem queue_files_idempotent_witness :
    (∀ p ∈ ["a"], joinPath "x" p ∈ ({ mkDownloadSims "wf" VARIANT "" with
        queue := ["x/a", "x/b"] } : DownloadSims).queue)
    ∧ queue_files "x" ["a"] { mkDownloadSims "wf" VARIANT "" with
        queue := ["x/a", "x/b"] }
      = { mkDownloadSims "wf" VARIANT "" with queue := ["x/a", "x/b"] } :=
  ⟨by decide,
    queue_files_idempotent { mkDownloadSims "wf" VARIANT "" with
      queue := ["x/a", "x/b"] } "x" ["a"] (by decide)⟩

/-! ## Lemmas about the discovery regex -/

/-- The gen pattern never matches at the empty remainder. -/
theorem genMatchAt_nil : genMatchAt [] = false := rfl

/-- When the gen pattern matches nowhere, the greedy group fails. -/
theorem lastGenSplit_none (l : List Char)
    (h : ∀ j, genMatchAt (l.drop j) = false) : lastGenSplit l = none := by
  induction l with
  | nil => rfl
  | cons c rest ih =>
    have hrest : lastGenSplit rest = none :=
      ih (fun j => by simpa using h (j + 1))
    have h0 : genMatchAt (c :: rest) = false := by simpa using h 0
    simp [lastGenSplit, hrest, h0]

/-- When the gen pattern matches at `i`, nowhere later, and the part
before `i` is newline-free (so the greedy group may reach `i`), the
group is exactly the part before `i`. -/
theorem lastGenSplit_eq_take (l : List Char) (i : Nat)
    (hyes : genMatchAt (l.drop i) = true)
    (hno : ∀ j, i < j → genMatchAt (l.drop j) = false)
    (hnl : '\n' ∉ l.take i) :
    lastGenSplit l = some (l.take i) := by
  induction l generalizing i with
  | nil =>
    rw [List.drop_nil, genMatchAt_nil] at hyes
    exact absurd hyes Bool.false_ne_true
  | cons c rest ih =>
    cases i with
    | zero =>
      have hrest : lastGenSplit rest = none :=
        lastGenSplit_none rest (fun j => by simpa using hno (j + 1) (Nat.succ_pos j))
      have h0 : genMatchAt (c :: rest) = true := by simpa using hyes
      simp [lastGenSplit, hrest, h0]
    | succ i2 =>
      have hyes2 : genMatchAt (rest.drop i2) = true := by simpa using hyes
      have hno2 : ∀ j, i2 < j → genMatchAt (rest.drop j) = false := fun j hj => by
        simpa using hno (j + 1) (Nat.succ_lt_succ hj)
      have hc : ¬ (c = '\n') := by
        intro hc
        exact hnl (by rw [List.take_succ_cons, hc]; exact List.mem_cons_self _ _)
      have hnl2 : '\n' ∉ rest.take i2 := by
        intro hm
        exact hnl (by rw [List.take_succ_cons]; exact List.mem_cons_of_mem _ hm)
      have hr := ih i2 hyes2 hno2 hnl2
      simp [lastGenSplit, if_neg hc, hr]

/-- Any match of the gen pattern reachable without crossing a newline
makes the greedy group succeed. -/
theorem lastGenSplit_isSome (l : List Char) (i : Nat)
    (h : genMatchAt (l.drop i) = true) (hnl : '\n' ∉ l.take i) :
    (lastGenSplit l).isSome = true := by
  induction l generalizing i with
  | nil =>
    rw [List.drop_nil, genMatchAt_nil] at h
    exact absurd h Bool.false_ne_true
  | cons c rest ih =>
    cases i with
    | zero =>
      simp only [lastGenSplit]
      cases hr : (if c = '\n' then none else lastGenSplit rest) with
      | some s => rfl
      | none =>
        rw [if_pos (by simpa using h)]
        rfl
    | succ i2 =>
      have hc : ¬ (c = '\n') := by
        intro hc
        exact hnl (by rw [List.take_succ_cons, hc]; exact List.mem_cons_self _ _)
      have hnl2 : '\n' ∉ rest.take i2 := by
        intro hm
        exact hnl (by rw [List.take_succ_cons]; exact List.mem_cons_of_mem _ hm)
      have hsome := ih i2 (by simpa using h) hnl2
      simp only [lastGenSplit, if_neg hc]
      cases hr : lastGenSplit rest with
      | some s => rfl
      | none => rw [hr] at hsome; simp at hsome

/-! ## Lemmas about decimal formatting -/

/-- A digit character is a digit. -/
theorem digitChar_isDigit (d : Nat) (h : d < 10) : (digitChar d).isDigit = true := by
  interval_cases d <;> decide

/-- Every ASCII digit is a Unicode decimal digit (the first range of the
table). -/
theorem isDigit_isPyDigit (c : Char) (h : c.isDigit = true) :
    isPyDigit c = true := by
  simp only [Char.isDigit, Bool.and_eq_true, decide_eq_true_eq] at h
  refine List.any_eq_true.mpr ⟨(48, 57), List.mem_cons_self _ _, ?_⟩
  have h1 : 48 ≤ c.toNat := h.1
  have h2 : c.toNat ≤ 57 := h.2
  simp [h1, h2]

/-- Every character produced by `natDigitsCore` is a digit or came from
the accumulator. -/
theorem natDigitsCore_mem (fuel : Nat) :
    ∀ (n : Nat) (acc : List Char) (c : Char), c ∈ natDigitsCore fuel n acc →
      c.isDigit = true ∨ c ∈ acc := by
  induction fuel with
  | zero => intro n acc c h; exact Or.inr h
  | succ f ih =>
    intro n acc c h
    simp only [natDigitsCore] at h
    by_cases h10 : n < 10
    · rw [if_pos h10] at h
      rcases List.mem_cons.mp h with h1 | h1
      · exact Or.inl (h1 ▸ digitChar_isDigit _ (Nat.mod_lt n (by omega)))
      · exact Or.inr h1
    · rw [if_neg h10] at h
      rcases ih _ _ _ h with h1 | h1
      · exact Or.inl h1
      · rcases List.mem_cons.mp h1 with h2 | h2
        · exact Or.inl (h2 ▸ digitChar_isDigit _ (Nat.mod_lt n (by omega)))
        · exact Or.inr h2

/-- `natDigitsCore` never shrinks a nonempty accumulator to nothing. -/
theorem natDigitsCore_ne_nil_of_acc (fuel : Nat) :
    ∀ (n : Nat) (acc : List Char), acc ≠ [] → natDigitsCore fuel n acc ≠ [] := by
  induction fuel with
  | zero => intro n acc h; exact h
  | succ f ih =>
    intro n acc h
    simp only [natDigitsCore]
    by_cases h10 : n < 10
    · rw [if_pos h10]; exact List.cons_ne_nil _ _
    · rw [if_neg h10]; exact ih _ _ (List.cons_ne_nil _ _)

/-- With nonzero fuel, `natDigitsCore` emits at least one digit. -/
theorem natDigitsCore_ne_nil (fuel n : Nat) (acc : List Char) (h : fuel ≠ 0) :
    natDigitsCore fuel n acc ≠ [] := by
  cases fuel with
  | zero => exact absurd rfl h
  | succ f =>
    simp only [natDigitsCore]
    by_cases h10 : n < 10
    · rw [if_pos h10]; exact List.cons_ne_nil _ _
    · rw [if_neg h10]; exact natDigitsCore_ne_nil_of_acc _ _ _ (List.cons_ne_nil _ _)

/-- Every character of a decimal representation is a digit. -/
theorem natRepr_digits (n : Nat) (c : Char) (h : c ∈ (natRepr n).data) :
    c.isDigit = true := by
  rcases natDigitsCore_mem (n + 1) n [] c h with h1 | h1
  · exact h1
  · exact absurd h1 (List.not_mem_nil c)

/-- A decimal representation is never empty. -/
theorem natRepr_ne_nil (n : Nat) : (natRepr n).data ≠ [] :=
  natDigitsCore_ne_nil (n + 1) n [] (Nat.succ_ne_zero n)

/-- The character data of a zero-padded string. -/
theorem padZeros_data (s : String) (w : Nat) :
    (padZeros s w).data = List.replicate (w - s.data.length) '0' ++ s.data := by
  rw [padZeros, String.data_append]

/-- For a nonnegative argument the padded field is plain digits. -/
theorem zeroPad6_data_nonneg (n : Int) (h : 0 ≤ n) :
    (zeroPad6 n).data
      = List.replicate (6 - (natRepr n.toNat).data.length) '0'
          ++ (natRepr n.toNat).data := by
  rw [zeroPad6, if_neg (by omega : ¬ n < 0)]
  exact padZeros_data _ _

/-- For a nonnegative argument every padded character is a digit. -/
theorem zeroPad6_digits (n : Int) (h0 : 0 ≤ n) :
    ∀ c ∈ (zeroPad6 n).data, c.isDigit = true := by
  intro c hc
  rw [zeroPad6_data_nonneg n h0] at hc
  rcases List.mem_append.mp hc with h1 | h1
  · rw [List.eq_of_mem_replicate h1]; decide
  · exact natRepr_digits _ _ h1

/-- For a nonnegative argument the padded field has at least six digits. -/
theorem zeroPad6_length (n : Int) (h0 : 0 ≤ n) : 6 ≤ (zeroPad6 n).data.length := by
  rw [zeroPad6_data_nonneg n h0, List.length_append, List.length_replicate]
  omega

/-- The padded field is never empty. -/
theorem zeroPad6_ne_nil (n : Int) : (zeroPad6 n).data ≠ [] := by
  rw [zeroPad6]
  by_cases h : n < 0
  · rw [if_pos h, String.data_append]
    simp
  · rw [if_neg h, padZeros_data]
    intro hc
    exact natRepr_ne_nil n.toNat (List.append_eq_nil.mp hc).2

/-- Every character of the padded field is a digit or the minus sign. -/
theorem zeroPad6_mem (n : Int) (c : Char) (h : c ∈ (zeroPad6 n).data) :
    c.isDigit = true ∨ c = '-' := by
  rw [zeroPad6] at h
  by_cases hn : n < 0
  · rw [if_pos hn, String.data_append] at h
    rcases List.mem_append.mp h with h1 | h1
    · right
      simpa using h1
    · rw [padZeros_data] at h1
      rcases List.mem_append.mp h1 with h2 | h2
      · left; rw [List.eq_of_mem_replicate h2]; decide
      · exact Or.inl (natRepr_digits _ _ h2)
  · rw [if_neg hn, padZeros_data] at h
    rcases List.mem_append.mp h with h1 | h1
    · left; rw [List.eq_of_mem_replicate h1]; decide
    · exact Or.inl (natRepr_digits _ _ h1)

/-- The gen pattern matches at the head of
`generation_` + `zeroPad6 mg` + anything, when `mg ≥ 0`. -/
theorem genMatchAt_gen (mg : Int) (h0 : 0 ≤ mg) (r : List Char) :
    genMatchAt ("generation_".data ++ ((zeroPad6 mg).data ++ r)) = true := by
  have hpre : "generation_".data.isPrefixOf
      ("generation_".data ++ ((zeroPad6 mg).data ++ r)) = true :=
    List.isPrefixOf_iff_prefix.mpr ⟨_, rfl⟩
  have hdrop : ("generation_".data ++ ((zeroPad6 mg).data ++ r)).drop 11
      = (zeroPad6 mg).data ++ r := by
    have h11 : ("generation_".data).length = 11 := rfl
    rw [← h11]
    exact List.drop_left _ _
  have htake : ((zeroPad6 mg).data ++ r).take 6 = (zeroPad6 mg).data.take 6 :=
    List.take_append_of_le_length (zeroPad6_length mg h0)
  have hlen : ((zeroPad6 mg).data.take 6).length = 6 := by
    rw [List.length_take]
    have := zeroPad6_length mg h0
    omega
  have hall : ((zeroPad6 mg).data.take 6).all isPyDigit = true :=
    List.all_eq_true.mpr fun c hc =>
      isDigit_isPyDigit c (zeroPad6_digits mg h0 c (List.take_subset _ _ hc))
  rw [genMatchAt, hdrop, htake, hpre, hlen, hall]
  simp

/-! ## Lemmas about path joining and the marker path -/

/-- Characterisation of `strStartsWith` by character data. -/
theorem strStartsWith_iff (s p : String) :
    strStartsWith s p = true ↔ ∃ t, s.data = p.data ++ t := by
  rw [strStartsWith, List.isPrefixOf_iff_prefix]
  constructor
  · rintro ⟨t, ht⟩
    exact ⟨t, ht.symm⟩
  · rintro ⟨t, ht⟩
    exact ⟨t, ht.symm⟩

/-- A string with nonempty data is not the empty string. -/
theorem ne_empty_of_data_ne_nil (s : String) (h : s.data ≠ []) : s ≠ "" := by
  intro he
  rw [he] at h
  exact h rfl

/-- A string ending in the separator contains the separator. -/
theorem strEndsWith_slash_mem (s : String) (h : strEndsWith s "/" = true) :
    '/' ∈ s.data := by
  rw [strEndsWith] at h
  have hd : ("/" : String).data.reverse = ['/'] := rfl
  rw [hd] at h
  cases hrev : s.data.reverse with
  | nil => rw [hrev] at h; simp [List.isPrefixOf] at h
  | cons a t =>
    rw [hrev] at h
    simp only [List.isPrefixOf, Bool.and_eq_true, beq_iff_eq] at h
    have : '/' ∈ s.data.reverse := by
      rw [hrev, ← h.1]
      exact List.mem_cons_self _ _
    exact List.mem_reverse.mp this

/-- Appending a nonempty component decides the final separator. -/
theorem strEndsWith_slash_append (a b : String) (hb : b.data ≠ []) :
    strEndsWith (a ++ b) "/" = strEndsWith b "/" := by
  rw [strEndsWith, strEndsWith, String.data_append, List.reverse_append]
  have hd : ("/" : String).data.reverse = ['/'] := rfl
  rw [hd]
  cases hb2 : b.data.reverse with
  | nil =>
    exact absurd (by simpa using congrArg List.reverse hb2) hb
  | cons x t =>
    simp [List.isPrefixOf]

/-- The `generation_` + padded-field component never ends in the
separator. -/
theorem strEndsWith_zeroPad_false (mg : Int) :
    strEndsWith ("generation_" ++ zeroPad6 mg) "/" = false := by
  cases hsw : strEndsWith ("generation_" ++ zeroPad6 mg) "/" with
  | false => rfl
  | true =>
    have hmem := strEndsWith_slash_mem _ hsw
    rw [String.data_append] at hmem
    rcases List.mem_append.mp hmem with h1 | h1
    · exact absurd h1 (by decide)
    · rcases zeroPad6_mem mg '/' h1 with h2 | h2
      · exact absurd h2 (by decide)
      · exact absurd h2 (by decide)

/-- Unfolding `joinPath` in the separator-inserting branch. -/
theorem joinPath_sep (a b : String) (ha : a ≠ "")
    (hea : strEndsWith a "/" = false) (hb : strStartsWith b "/" = false) :
    joinPath a b = a ++ "/" ++ b := by
  have h1 : ¬ (strStartsWith b "/" = true) := by
    rw [hb]; exact Bool.false_ne_true
  have h2 : ¬ ((decide (a = "") || strEndsWith a "/") = true) := by
    rw [hea, decide_eq_false ha]
    simp
  rw [joinPath, if_neg h1, if_neg h2]

/-- Unfolding `joinPath` in the plain-append branch. -/
theorem joinPath_app (a b : String) (hor : a = "" ∨ strEndsWith a "/" = true)
    (hb : strStartsWith b "/" = false) : joinPath a b = a ++ b := by
  have h1 : ¬ (strStartsWith b "/" = true) := by
    rw [hb]; exact Bool.false_ne_true
  have h2 : (decide (a = "") || strEndsWith a "/") = true := by
    rcases hor with h | h
    · simp [h]
    · rw [h]; simp
  rw [joinPath, if_neg h1, if_pos h2]

/-- A joined path with a relative second component ends in that
component. -/
theorem joinPath_data_split (a b : String) (hb : strStartsWith b "/" = false) :
    ∃ s, (joinPath a b).data = s ++ b.data
      ∧ ∀ ch ∈ s, ch ∈ a.data ∨ ch = '/' := by
  have h1 : ¬ (strStartsWith b "/" = true) := by
    rw [hb]; exact Bool.false_ne_true
  by_cases h2 : (decide (a = "") || strEndsWith a "/") = true
  · rw [joinPath, if_neg h1, if_pos h2, String.data_append]
    exact ⟨a.data, rfl, fun ch hch => Or.inl hch⟩
  · rw [joinPath, if_neg h1, if_neg h2, String.data_append]
    refine ⟨(a ++ "/").data, rfl, ?_⟩
    intro ch hch
    rw [String.data_append] at hch
    rcases List.mem_append.mp hch with hch1 | hch1
    · exact Or.inl hch1
    · right
      simpa using hch1

/-- The marker path splits as `generation_`, the padded field, and a
fixed tail. -/
theorem markerPath_data (mg : Int) : ∃ rest : List Char,
    (markerPath mg).data = "generation_".data ++ ((zeroPad6 mg).data ++ rest) := by
  have e0 : ("generation_" ++ zeroPad6 mg).data
      = "generation_".data ++ (zeroPad6 mg).data := String.data_append _ _
  have hA1 : ("generation_" ++ zeroPad6 mg) ≠ "" := by
    refine ne_empty_of_data_ne_nil _ ?_
    rw [e0]
    intro hc
    exact absurd (List.append_eq_nil.mp hc).1 (by decide)
  have j1 := joinPath_sep ("generation_" ++ zeroPad6 mg) "000000" hA1
    (strEndsWith_zeroPad_false mg) (by decide)
  have hA2 : (("generation_" ++ zeroPad6 mg) ++ "/" ++ "000000") ≠ "" := by
    refine ne_empty_of_data_ne_nil _ ?_
    rw [String.data_append]
    intro hc
    exact absurd (List.append_eq_nil.mp hc).2 (by decide)
  have hA2e : strEndsWith (("generation_" ++ zeroPad6 mg) ++ "/" ++ "000000") "/" = false := by
    rw [strEndsWith_slash_append _ "000000" (by decide)]
    decide
  have j2 := joinPath_sep _ "simOut" hA2 hA2e (by decide)
  have hA3 : ((("generation_" ++ zeroPad6 mg) ++ "/" ++ "000000") ++ "/" ++ "simOut") ≠ "" := by
    refine ne_empty_of_data_ne_nil _ ?_
    rw [String.data_append]
    intro hc
    exact absurd (List.append_eq_nil.mp hc).2 (by decide)
  have hA3e : strEndsWith ((("generation_" ++ zeroPad6 mg) ++ "/" ++ "000000") ++ "/" ++ "simOut")
      "/" = false := by
    rw [strEndsWith_slash_append _ "simOut" (by decide)]
    decide
  have j3 := joinPath_sep _ "Daughter1_inherited_state.cPickle" hA3 hA3e (by decide)
  refine ⟨("/" : String).data ++ ("000000" : String).data ++ ("/" : String).data
    ++ ("simOut" : String).data ++ ("/" : String).data
    ++ ("Daughter1_inherited_state.cPickle" : String).data, ?_⟩
  rw [markerPath, j1, j2, j3]
  simp [String.data_append, List.append_assoc]

/-- The gen pattern matches at the head of the marker path followed by
anything, for a nonnegative generation index. -/
theorem genMatchAt_markerPath (mg : Int) (h0 : 0 ≤ mg) (t : List Char) :
    genMatchAt ((markerPath mg).data ++ t) = true := by
  rcases markerPath_data mg with ⟨rest, hrest⟩
  rw [hrest]
  have := genMatchAt_gen mg h0 (rest ++ t)
  simpa [List.append_assoc] using this

/-- The marker path is a relative path. -/
theorem markerPath_head (mg : Int) : strStartsWith (markerPath mg) "/" = false := by
  rcases markerPath_data mg with ⟨rest, hrest⟩
  rw [strStartsWith, hrest]
  have hg : ("generation_" : String).data = 'g' :: ("eneration_" : String).data := rfl
  have hs : ("/" : String).data = ['/'] := rfl
  rw [hg, hs, List.cons_append]
  simp [List.isPrefixOf]

/-- Specification of the bounded `cleanAfter` check: banning the
`generation_` literal after `k` bans the full gen pattern there. -/
theorem cleanAfter_spec (k : Nat) (l : List Char) (h : cleanAfter k l = true) :
    ∀ j, k < j → genMatchAt (l.drop j) = false := by
  intro j hj
  by_cases hle : j ≤ l.length
  · have hmem : j ∈ List.range (l.length + 1) := List.mem_range.mpr (by omega)
    have hf := List.all_eq_true.mp h j hmem
    rw [if_pos hj] at hf
    have hpre : "generation_".data.isPrefixOf (l.drop j) = false := by
      cases hp : "generation_".data.isPrefixOf (l.drop j) with
      | false => rfl
      | true => rw [hp] at hf; simp at hf
    rw [genMatchAt, hpre]
    rfl
  · rw [List.drop_eq_nil_of_le (by omega)]
    exact genMatchAt_nil

/-- The central extraction property: for an object name of the canonical
form storage-root + seed-directory + marker path + arbitrary deeper
suffix, with no stray gen pattern after the seed part, the discovery
regex recovers exactly the seed-directory part — however deep the object
sits. -/
theorem matchGroup1_canonical (pre c : String) (mg : Int) (t : List Char)
    (name : String) (h0 : 0 ≤ mg)
    (hname : name.data = pre.data ++ (c.data ++ ((markerPath mg).data ++ t)))
    (hclean : cleanAfter c.data.length (c.data ++ ((markerPath mg).data ++ t)) = true)
    (hnlc : c.data.contains '\n' = false) :
    matchGroup1 pre name = some c := by
  have hsw : strStartsWith name pre = true :=
    (strStartsWith_iff name pre).mpr ⟨_, hname⟩
  have hrem : name.data.drop pre.data.length
      = c.data ++ ((markerPath mg).data ++ t) := by
    rw [hname]
    exact List.drop_left _ _
  have hyes : genMatchAt ((c.data ++ ((markerPath mg).data ++ t)).drop c.data.length)
      = true := by
    rw [List.drop_left]
    exact genMatchAt_markerPath mg h0 t
  have hno := cleanAfter_spec _ _ hclean
  have hnl : '\n' ∉ (c.data ++ ((markerPath mg).data ++ t)).take c.data.length := by
    rw [List.take_left]
    intro hm
    have hc2 : c.data.contains '\n' = true := List.elem_iff.mpr hm
    rw [hnlc] at hc2
    exact Bool.false_ne_true hc2
  have hsplit : lastGenSplit (c.data ++ ((markerPath mg).data ++ t))
      = some ((c.data ++ ((markerPath mg).data ++ t)).take c.data.length) :=
    lastGenSplit_eq_take _ _ hyes hno hnl
  rw [matchGroup1, if_pos hsw, hrem, hsplit, List.take_left]
  rfl

/-! ## The discovery result as a filter of the candidates -/

/-- Unpacking of the decidable canonical-form check. -/
theorem canonicalName_spec (root c : String) (mg : Int) (n : String)
    (h : canonicalName root c mg n = true) :
    ∃ t, n.data = root.data ++ (c.data ++ ((markerPath mg).data ++ t))
      ∧ cleanAfter c.data.length (c.data ++ ((markerPath mg).data ++ t)) = true
      ∧ c.data.contains '\n' = false := by
  rw [canonicalName, Bool.and_eq_true, Bool.and_eq_true, decide_eq_true_eq] at h
  refine ⟨_, h.1.1, h.1.2, ?_⟩
  have h2 := h.2
  cases hc : c.data.contains '\n' with
  | false => rfl
  | true => rw [hc] at h2; simp at h2

/-- When every candidate has at most one marker object and each matched
name extracts back to its candidate, discovery returns exactly the
candidates with a non-empty marker probe, in enumeration order. -/
theorem find_eq_filter (variant : String) (st : CloudStorage) (mg : Int)
    (hone : ∀ c ∈ candidates variant st,
      (st.list_blobs (joinPath c (markerPath mg))).length ≤ 1)
    (hext : ∀ c ∈ candidates variant st,
      ∀ n ∈ st.list_blobs (joinPath c (markerPath mg)),
        matchGroup1 st.storageRoot n = some c) :
    find_successful_seed_dirs variant st mg
      = some ((candidates variant st).filter
          (fun c => !(st.list_blobs (joinPath c (markerPath mg))).isEmpty)) := by
  have aux : ∀ cs : List String,
      (∀ c ∈ cs, (st.list_blobs (joinPath c (markerPath mg))).length ≤ 1) →
      (∀ c ∈ cs, ∀ n ∈ st.list_blobs (joinPath c (markerPath mg)),
        matchGroup1 st.storageRoot n = some c) →
      ∃ ds, extractIters st.storageRoot
          (cs.map (fun seed => st.list_blobs (joinPath seed (markerPath mg)))) = some ds
        ∧ ds.flatten = cs.filter
            (fun c => !(st.list_blobs (joinPath c (markerPath mg))).isEmpty) := by
    intro cs
    induction cs with
    | nil => intro _ _; exact ⟨[], rfl, rfl⟩
    | cons c cs2 ih =>
      intro h1 h2
      rcases ih (fun x hx => h1 x (List.mem_cons_of_mem _ hx))
        (fun x hx => h2 x (List.mem_cons_of_mem _ hx)) with ⟨ds, hds, hflat⟩
      cases hpc : st.list_blobs (joinPath c (markerPath mg)) with
      | nil =>
        refine ⟨[] :: ds, ?_, ?_⟩
        · simp only [List.map_cons, extractIters, hpc, extractAll, hds]
        · simp [hflat, List.filter_cons, hpc]
      | cons n ns =>
        have hns : ns = [] := by
          have hlen := h1 c (List.mem_cons_self _ _)
          rw [hpc] at hlen
          simp only [List.length_cons] at hlen
          exact List.length_eq_zero.mp (by omega)
        subst hns
        have hm : matchGroup1 st.storageRoot n = some c :=
          h2 c (List.mem_cons_self _ _) n (by rw [hpc]; exact List.mem_cons_self _ _)
        refine ⟨[c] :: ds, ?_, ?_⟩
        · simp only [List.map_cons, extractIters, hpc, extractAll, hm, hds]
        · simp [hflat, List.filter_cons, hpc]
  rcases aux (candidates variant st) hone hext with ⟨ds, hds, hflat⟩
  rw [find_successful_seed_dirs]
  rw [hds]
  simp [hflat]

/-! ## Claim C3: discovery selects exactly the marked candidates -/

/-- C3: for every variant and target generation, when each candidate
seed has at most one object under its exact marker path and matched
names extract back to their candidate, `find_successful_seed_dirs`
returns exactly those enumerated candidates for which the store holds at
least one object under the exact marker path
`seed/generation_<max_gen %06d>/000000/simOut/Daughter1_inherited_state.cPickle`;
a candidate without such an object is excluded even if the store holds
objects of it at other generation paths. -/
theorem find_seed_dirs_exact (variant : String) (st : CloudStorage) (mg : Int)
    (hone : ∀ c ∈ candidates variant st,
      (st.list_blobs (joinPath c (markerPath mg))).length ≤ 1)
    (hext : ∀ c ∈ candidates variant st,
      ∀ n ∈ st.list_blobs (joinPath c (markerPath mg)),
        matchGroup1 st.storageRoot n = some c) :
    find_successful_seed_dirs variant st mg
      = some ((candidates variant st).filter
          (fun c => !(st.list_blobs (joinPath c (markerPath mg))).isEmpty)) :=
  find_eq_filter variant st mg hone hext

/-- Witness for C3: in `exStore2`, seed `000000` has the generation-1
marker and is returned; seed `000001` has only a generation-0 object and
is excluded. -/
theorem find_seed_dirs_exact_witness :
    ((∀ c ∈ candidates VARIANT exStore2,
        (exStore2.list_blobs (joinPath c (markerPath 1))).length ≤ 1)
      ∧ (∀ c ∈ candidates VARIANT exStore2,
        ∀ n ∈ exStore2.list_blobs (joinPath c (markerPath 1)),
          matchGroup1 exStore2.storageRoot n = some c))
    ∧ find_successful_seed_dirs VARIANT exStore2 1
      = some ((candidates VARIANT exStore2).filter
          (fun c => !(exStore2.list_blobs (joinPath c (markerPath 1))).isEmpty)) :=
  ⟨⟨by decide, by decide⟩,
    find_seed_dirs_exact VARIANT exStore2 1 (by decide) (by decide)⟩

/-! ## Claim C10: when the extraction regex matches probed names -/

set_option maxRecDepth 10000 in
/-- C10 counterexample: a probed object name whose seed segment contains
a newline satisfies the stated precondition — it starts with the probed
prefix, which contains `generation_` followed by six digits — yet the
greedy group of the discovery regex cannot span the newline, `re.match`
returns `None`, and the supposedly unreachable error branch (`None`
indexing) is reached. -/
theorem probe_match_newline_counterexample :
    (0 : Int) ≤ 1
    ∧ exNlObj ∈ exNlStore.list_blobs (joinPath "bad\nseed/" (markerPath 1))
    ∧ matchGroup1 exNlStore.storageRoot exNlObj = none :=
  ⟨by decide, by decide, by decide⟩

/-- C10 as amended: every object name returned by a marker probe whose
probed seed segment is newline-free starts with the probed prefix, which
contains `generation_` followed by six digits (whenever the probed
generation index is nonnegative), so the discovery regex necessarily
matches it and the error branch of the match indexing is unreachable for
such names. -/
theorem probe_match_total (st : CloudStorage) (seed : String) (mg : Int)
    (h0 : 0 ≤ mg) (hnl : seed.data.contains '\n' = false) (n : String)
    (hn : n ∈ st.list_blobs (joinPath seed (markerPath mg))) :
    (matchGroup1 st.storageRoot n).isSome = true := by
  have hmem := List.mem_filter.mp hn
  rcases (strStartsWith_iff _ _).mp hmem.2 with ⟨t, ht⟩
  rw [String.data_append, List.append_assoc] at ht
  rcases joinPath_data_split seed (markerPath mg) (markerPath_head mg)
    with ⟨s, hs, hsmem⟩
  have hroot : strStartsWith n st.storageRoot = true :=
    (strStartsWith_iff _ _).mpr ⟨_, ht⟩
  have hrem : n.data.drop st.storageRoot.data.length
      = (joinPath seed (markerPath mg)).data ++ t := by
    rw [ht]
    exact List.drop_left _ _
  have hgen : genMatchAt (((joinPath seed (markerPath mg)).data ++ t).drop s.length)
      = true := by
    rw [hs, List.append_assoc, List.drop_left]
    exact genMatchAt_markerPath mg h0 t
  have hnlt : '\n' ∉ ((joinPath seed (markerPath mg)).data ++ t).take s.length := by
    rw [hs, List.append_assoc, List.take_left]
    intro hm
    rcases hsmem '\n' hm with hin | hsl
    · have hc2 : seed.data.contains '\n' = true := List.elem_iff.mpr hin
      rw [hnl] at hc2
      exact Bool.false_ne_true hc2
    · exact absurd hsl (by decide)
  have hsome := lastGenSplit_isSome _ _ hgen hnlt
  rw [matchGroup1, if_pos hroot, hrem]
  cases hx : lastGenSplit ((joinPath seed (markerPath mg)).data ++ t) with
  | none => rw [hx] at hsome; simp at hsome
  | some s2 => rfl

/-- Witness for the amended C10 at a probed object of the concrete
store. -/
theorem probe_match_total_witness :
    ((0 : Int) ≤ 1
      ∧ ("wildtype_000000/000000/" : String).data.contains '\n' = false
      ∧ exObj1 ∈ exStore.list_blobs (joinPath "wildtype_000000/000000/" (markerPath 1)))
    ∧ (matchGroup1 exStore.storageRoot exObj1).isSome = true :=
  ⟨⟨by decide, by decide, by decide⟩,
    probe_match_total exStore "wildtype_000000/000000/" 1 (by decide) (by decide)
      exObj1 (by decide)⟩

/-! ## Claim C8: extraction is depth-independent; result order and
duplicates -/

/-- C8: for canonical object names — storage root + seed directory +
marker path + an arbitrary deeper suffix free of stray gen patterns —
the regex extraction recovers exactly the seed-directory part between
the storage root and the `generation_` + six digits occurrence, however
deep the matched object sits; moreover, with at most one marker object
per candidate, the flattened discovery result is a sublist of the
candidate enumeration (seed enumeration order) and contains no
duplicates. -/
theorem extraction_depth_order_nodup (variant : String) (st : CloudStorage)
    (mg : Int) (h0 : 0 ≤ mg)
    (hone : ∀ c ∈ candidates variant st,
      (st.list_blobs (joinPath c (markerPath mg))).length ≤ 1)
    (hcanon : ∀ c ∈ candidates variant st,
      ∀ n ∈ st.list_blobs (joinPath c (markerPath mg)),
        canonicalName st.storageRoot c mg n = true)
    (hnd : (candidates variant st).Nodup) :
    (∀ c ∈ candidates variant st,
      ∀ n ∈ st.list_blobs (joinPath c (markerPath mg)),
        matchGroup1 st.storageRoot n = some c)
    ∧ ∃ res, find_successful_seed_dirs variant st mg = some res
        ∧ res.Sublist (candidates variant st) ∧ res.Nodup := by
  have hext : ∀ c ∈ candidates variant st,
      ∀ n ∈ st.list_blobs (joinPath c (markerPath mg)),
        matchGroup1 st.storageRoot n = some c := by
    intro c hc n hn
    rcases canonicalName_spec _ _ _ _ (hcanon c hc n hn) with ⟨t, hnm, hcl, hnlc⟩
    exact matchGroup1_canonical _ c mg t n h0 hnm hcl hnlc
  refine ⟨hext, ?_⟩
  refine ⟨_, find_eq_filter variant st mg hone hext, List.filter_sublist _, hnd.filter _⟩

set_option maxRecDepth 100000 in
/-- Witness for C8 at the two-seed concrete store. -/
theorem extraction_depth_order_nodup_witness :
    ((0 : Int) ≤ 1
      ∧ (∀ c ∈ candidates VARIANT exStore,
          (exStore.list_blobs (joinPath c (markerPath 1))).length ≤ 1)
      ∧ (∀ c ∈ candidates VARIANT exStore,
          ∀ n ∈ exStore.list_blobs (joinPath c (markerPath 1)),
            canonicalName exStore.storageRoot c 1 n = true)
      ∧ (candidates VARIANT exStore).Nodup)
    ∧ ((∀ c ∈ candidates VARIANT exStore,
        ∀ n ∈ exStore.list_blobs (joinPath c (markerPath 1)),
          matchGroup1 exStore.storageRoot n = some c)
      ∧ ∃ res, find_successful_seed_dirs VARIANT exStore 1 = some res
          ∧ res.Sublist (candidates VARIANT exStore) ∧ res.Nodup) :=
  ⟨⟨by decide, by decide, by decide, by decide⟩,
    extraction_depth_order_nodup VARIANT exStore 1 (by decide) (by decide)
      (by decide) (by decide)⟩

/-! ## Lemmas about the orchestration pipeline -/

/-- A successful metadata download parses and stores the three fields. -/
theorem download_metadata_ok (w : World) (st : DownloadSims) (m : Metadata)
    (hf : w.fetch1 METADATA_PATHNAME = true) (hm : w.metaParse = some m) :
    download_metadata w st = .ok (m.generations,
      { st with count := st.count + 1
                attempted := st.attempted ++ [METADATA_PATHNAME]
                downloaded := st.downloaded ++ [METADATA_PATHNAME]
                generations := m.generations
                init_sims := m.init_sims
                seed := m.seed }) := by
  simp [download_metadata, download_file, hf, hm]

/-- A failed metadata transfer aborts with the transfer error. -/
theorem download_metadata_err_transfer (w : World) (st : DownloadSims)
    (hf : w.fetch1 METADATA_PATHNAME = false) :
    download_metadata w st = .error (RunError.metaTransfer,
      { st with attempted := st.attempted ++ [METADATA_PATHNAME] }) := by
  simp [download_metadata, download_file, hf]

/-- An unparseable metadata file aborts with the malformed error. -/
theorem download_metadata_err_parse (w : World) (st : DownloadSims)
    (hf : w.fetch1 METADATA_PATHNAME = true) (hm : w.metaParse = none) :
    download_metadata w st = .error (RunError.metaMalformed,
      { st with count := st.count + 1
                attempted := st.attempted ++ [METADATA_PATHNAME]
                downloaded := st.downloaded ++ [METADATA_PATHNAME] }) := by
  simp [download_metadata, download_file, hf, hm]

/-- Membership in the integer range of the generation loop. -/
theorem pyRange_mem (g x : Int) : x ∈ pyRange g ↔ 0 ≤ x ∧ x < g := by
  simp only [pyRange, List.mem_map, List.mem_range, Int.ofNat_eq_natCast]
  constructor
  · rintro ⟨k, hk, rfl⟩
    omega
  · rintro ⟨h1, h2⟩
    exact ⟨x.toNat, by omega, by omega⟩

/-- Summing a constant over a list. -/
theorem sum_map_const {α : Type} (l : List α) (c : Nat) :
    (l.map (fun _ => c)).sum = l.length * c := by
  induction l with
  | nil => simp
  | cons a l2 ih => simp [ih, Nat.succ_mul, Nat.add_comm]

/-- Folding an insertion over a flattened map is the nested fold. -/
theorem foldl_insertKey_flatMap {α : Type} (f : α → List String) (xs : List α) :
    ∀ q : List String, (xs.flatMap f).foldl insertKey q
      = xs.foldl (fun q2 x => (f x).foldl insertKey q2) q := by
  induction xs with
  | nil => intro q; rfl
  | cons x l ih =>
    intro q
    rw [List.flatMap_cons, List.foldl_append, List.foldl_cons, ih]

/-- The queue evolution of the inner (per-seed) queueing loop. -/
theorem inner_loop_queue (d : String) (gens : List Int) :
    ∀ s : DownloadSims,
      (gens.foldl (fun s2 gen => queue_files (genSimOut d gen) SIM_FILES s2) s).queue
        = (gens.flatMap (fun gen =>
            SIM_FILES.map (joinPath (genSimOut d gen)))).foldl insertKey s.queue := by
  induction gens with
  | nil => intro s; rfl
  | cons gen gens2 ih =>
    intro s
    rw [List.foldl_cons, ih, List.flatMap_cons, List.foldl_append,
      queue_files_queue]

/-- The queue evolution of the outer (per-seed-directory) queueing loop. -/
theorem outer_loop_queue (g : Int) (dirs : List String) :
    ∀ s : DownloadSims,
      (dirs.foldl (fun s2 d => (pyRange g).foldl
          (fun s3 gen => queue_files (genSimOut d gen) SIM_FILES s3) s2) s).queue
        = (dirs.flatMap (fun d => (pyRange g).flatMap (fun gen =>
            SIM_FILES.map (joinPath (genSimOut d gen))))).foldl insertKey s.queue := by
  induction dirs with
  | nil => intro s; rfl
  | cons d dirs2 ih =>
    intro s
    rw [List.foldl_cons, ih, inner_loop_queue, List.flatMap_cons,
      List.foldl_append]

/-- Inserting entirely fresh keys appends them in order. -/
theorem foldl_insertKey_all_new (keys : List String) :
    ∀ q : List String, (q ++ keys).Nodup → keys.foldl insertKey q = q ++ keys := by
  induction keys with
  | nil => intro q _; simp
  | cons k ks ih =>
    intro q h
    have hk : k ∉ q := by
      intro hkq
      rcases List.nodup_append.mp h with ⟨-, -, hdisj⟩
      exact hdisj hkq (List.mem_cons_self _ _)
    have hcontains : q.contains k = false := by
      cases hc : q.contains k with
      | false => rfl
      | true => exact absurd (List.elem_iff.mp hc) hk
    have hstep : insertKey q k = q ++ [k] := by
      rw [insertKey, hcontains]
      simp
    rw [List.foldl_cons, hstep, ih (q ++ [k]) (by rw [List.append_assoc]; exact h),
      List.append_assoc]
    rfl

/-! ## Claim C7: metadata failure aborts the run -/

/-- C7: when the metadata transfer raises or the metadata file is
malformed (unparseable, or missing one of the integer fields), the run
aborts with a propagated error before any seed discovery or queueing:
the only attempted transfer is the metadata file itself, the queue is
still empty, and nothing but (possibly) the metadata file was
downloaded. -/
theorem metadata_failure_aborts (w : World) (wf variant ld : String)
    (h : w.fetch1 METADATA_PATHNAME = false ∨ w.metaParse = none) :
    ∃ e st1,
      download_all_needed_files w (mkDownloadSims wf variant ld) = .error (e, st1)
      ∧ st1.queue = []
      ∧ st1.attempted = [METADATA_PATHNAME]
      ∧ (∀ p ∈ st1.downloaded, p = METADATA_PATHNAME) := by
  cases hfb : w.fetch1 METADATA_PATHNAME with
  | false =>
    refine ⟨RunError.metaTransfer,
      { mkDownloadSims wf variant ld with attempted := [METADATA_PATHNAME] },
      ?_, rfl, rfl, ?_⟩
    · simp only [download_all_needed_files, build_queue,
        download_metadata_err_transfer w _ hfb]
      simp [mkDownloadSims]
    · intro p hp
      exact absurd hp (by simp [mkDownloadSims])
  | true =>
    have hm : w.metaParse = none := by
      rcases h with hf1 | hm1
      · rw [hfb] at hf1
        exact absurd hf1 (by simp)
      · exact hm1
    refine ⟨RunError.metaMalformed,
      { mkDownloadSims wf variant ld with
          count := 1
          attempted := [METADATA_PATHNAME]
          downloaded := [METADATA_PATHNAME] },
      ?_, rfl, rfl, ?_⟩
    · simp only [download_all_needed_files, build_queue,
        download_metadata_err_parse w _ hfb hm]
      simp [mkDownloadSims]
    · intro p hp
      simpa [mkDownloadSims] using hp

/-- Witness for C7: the concrete world whose metadata transfer fails. -/
theorem metadata_failure_aborts_witness :
    (exMetaFailWorld.fetch1 METADATA_PATHNAME = false ∨ exMetaFailWorld.metaParse = none)
    ∧ ∃ e st1,
        download_all_needed_files exMetaFailWorld (mkDownloadSims "wf" VARIANT "")
            = .error (e, st1)
        ∧ st1.queue = []
        ∧ st1.attempted = [METADATA_PATHNAME]
        ∧ (∀ p ∈ st1.downloaded, p = METADATA_PATHNAME) :=
  ⟨by decide,
    metadata_failure_aborts exMetaFailWorld "wf" VARIANT "" (by decide)⟩

/-! ## Claim C6: empty discovery shrinks the download set -/

/-- C6: when discovery finds no qualifying seed directory (and metadata
succeeds), the run does not raise on that account: no per-generation
manifest file is ever queued (the built queue holds exactly the
per-variant simData file), and the files downloaded are exactly the
metadata file and the per-variant simData file. -/
theorem empty_discovery_downloads (w : World) (wf variant ld : String)
    (m : Metadata)
    (hf : w.fetch1 METADATA_PATHNAME = true)
    (hm : w.metaParse = some m)
    (hfind : find_successful_seed_dirs variant w.store (m.generations - 1) = some [])
    (hsd : w.fetch1 (joinPath variant SIMDATA_MODIFIED_SUBPATH) = true) :
    ∃ stq stf,
      build_queue w (mkDownloadSims wf variant ld) = .ok (m.generations, stq)
      ∧ stq.queue = [joinPath variant SIMDATA_MODIFIED_SUBPATH]
      ∧ download_all_needed_files w (mkDownloadSims wf variant ld) = .ok (2, stf)
      ∧ stf.attempted = [METADATA_PATHNAME, joinPath variant SIMDATA_MODIFIED_SUBPATH]
      ∧ stf.downloaded = [METADATA_PATHNAME, joinPath variant SIMDATA_MODIFIED_SUBPATH]
      ∧ stf.queue = [] := by
  refine ⟨{ variant_name := variant,
            local_dir := joinPath (if ld = "" then wf else ld) "",
            queue := [joinPath variant SIMDATA_MODIFIED_SUBPATH], count := 1,
            generations := m.generations, init_sims := m.init_sims, seed := m.seed,
            attempted := [METADATA_PATHNAME], downloaded := [METADATA_PATHNAME] },
          { variant_name := variant,
            local_dir := joinPath (if ld = "" then wf else ld) "",
            queue := [], count := 2,
            generations := m.generations, init_sims := m.init_sims, seed := m.seed,
            attempted := [METADATA_PATHNAME, joinPath variant SIMDATA_MODIFIED_SUBPATH],
            downloaded := [METADATA_PATHNAME, joinPath variant SIMDATA_MODIFIED_SUBPATH] },
          ?_, rfl, ?_, rfl, rfl, rfl⟩
  · simp only [build_queue, download_metadata_ok w _ m hf hm]
    simp [mkDownloadSims, queue_files, hfind]
  · simp only [download_all_needed_files, build_queue,
      download_metadata_ok w _ m hf hm]
    simp [mkDownloadSims, queue_files, hfind, parallel_download, serial_download,
      drain, download_file, hsd]

/-- Witness for C6: the concrete world with no seed directories. -/
theorem empty_discovery_downloads_witness :
    (exNoSeedWorld.fetch1 METADATA_PATHNAME = true
      ∧ exNoSeedWorld.metaParse = some { generations := 2, init_sims := 1, seed := 0 }
      ∧ find_successful_seed_dirs VARIANT exNoSeedWorld.store
          ((2 : Int) - 1) = some []
      ∧ exNoSeedWorld.fetch1 (joinPath VARIANT SIMDATA_MODIFIED_SUBPATH) = true)
    ∧ ∃ stq stf,
        build_queue exNoSeedWorld (mkDownloadSims "wf" VARIANT "") = .ok (2, stq)
        ∧ stq.queue = [joinPath VARIANT SIMDATA_MODIFIED_SUBPATH]
        ∧ download_all_needed_files exNoSeedWorld (mkDownloadSims "wf" VARIANT "")
            = .ok (2, stf)
        ∧ stf.attempted = [METADATA_PATHNAME, joinPath VARIANT SIMDATA_MODIFIED_SUBPATH]
        ∧ stf.downloaded = [METADATA_PATHNAME, joinPath VARIANT SIMDATA_MODIFIED_SUBPATH]
        ∧ stf.queue = [] :=
  ⟨⟨by decide, by decide, by decide, by decide⟩,
    empty_discovery_downloads exNoSeedWorld "wf" VARIANT ""
      { generations := 2, init_sims := 1, seed := 0 }
      (by decide) (by decide) (by decide) (by decide)⟩

/-! ## Claim C9: probe target and generation coverage -/

/-- Length of a flattened map with blocks of constant length. -/
theorem length_flatMap_const {α : Type} (f : α → List String) (l : List α)
    (c : Nat) (h : ∀ a ∈ l, (f a).length = c) :
    (l.flatMap f).length = l.length * c := by
  induction l with
  | nil => simp
  | cons a l2 ih =>
    rw [List.flatMap_cons, List.length_append, h a (List.mem_cons_self _ _),
      ih (fun x hx => h x (List.mem_cons_of_mem _ hx)), List.length_cons]
    ring

/-- C9: the completion-marker probe targets generation
`generations - 1`, and for each discovered seed directory the queue
covers exactly the generation indices `0 ≤ gen < generations`, with
`generations × |SIM_FILES|` manifest entries per seed (next to the one
per-variant simData entry). -/
theorem generations_coverage (w : World) (wf variant ld : String)
    (m : Metadata) (dirs : List String)
    (hf : w.fetch1 METADATA_PATHNAME = true)
    (hm : w.metaParse = some m)
    (hfind : find_successful_seed_dirs variant w.store (m.generations - 1)
        = some dirs)
    (hnd : (joinPath variant SIMDATA_MODIFIED_SUBPATH ::
        dirs.flatMap (fun d => (pyRange m.generations).flatMap (fun gen =>
          SIM_FILES.map (joinPath (genSimOut d gen))))).Nodup) :
    ∃ stq, build_queue w (mkDownloadSims wf variant ld) = .ok (m.generations, stq)
      ∧ stq.queue = joinPath variant SIMDATA_MODIFIED_SUBPATH ::
          dirs.flatMap (fun d => (pyRange m.generations).flatMap (fun gen =>
            SIM_FILES.map (joinPath (genSimOut d gen))))
      ∧ (∀ path, path ∈ stq.queue ↔
          path = joinPath variant SIMDATA_MODIFIED_SUBPATH
          ∨ ∃ d ∈ dirs, ∃ gen : Int, 0 ≤ gen ∧ gen < m.generations
              ∧ ∃ f ∈ SIM_FILES, path = joinPath (genSimOut d gen) f)
      ∧ stq.queue.length
          = 1 + dirs.length * (m.generations.toNat * SIM_FILES.length) := by
  have hq : (dirs.foldl (fun s2 d => (pyRange m.generations).foldl
      (fun s3 gen => queue_files (genSimOut d gen) SIM_FILES s3) s2)
      { variant_name := variant,
        local_dir := joinPath (if ld = "" then wf else ld) "",
        queue := [joinPath variant SIMDATA_MODIFIED_SUBPATH], count := 1,
        generations := m.generations, init_sims := m.init_sims, seed := m.seed,
        attempted := [METADATA_PATHNAME],
        downloaded := [METADATA_PATHNAME] } : DownloadSims).queue
      = joinPath variant SIMDATA_MODIFIED_SUBPATH ::
          dirs.flatMap (fun d => (pyRange m.generations).flatMap (fun gen =>
            SIM_FILES.map (joinPath (genSimOut d gen)))) := by
    rw [outer_loop_queue]
    exact foldl_insertKey_all_new _ _ hnd
  refine ⟨_, ?_, hq, ?_, ?_⟩
  · simp only [build_queue, download_metadata_ok w _ m hf hm]
    simp [mkDownloadSims, queue_files, hfind]
  · intro path
    rw [hq, List.mem_cons]
    constructor
    · rintro (h1 | h1)
      · exact Or.inl h1
      · rcases List.mem_flatMap.mp h1 with ⟨d, hd, h2⟩
        rcases List.mem_flatMap.mp h2 with ⟨gen, hgen, h3⟩
        rcases List.mem_map.mp h3 with ⟨f, hfmem, rfl⟩
        rcases (pyRange_mem _ _).mp hgen with ⟨hg1, hg2⟩
        exact Or.inr ⟨d, hd, gen, hg1, hg2, f, hfmem, rfl⟩
    · rintro (h1 | ⟨d, hd, gen, hg1, hg2, f, hfmem, rfl⟩)
      · exact Or.inl h1
      · refine Or.inr (List.mem_flatMap.mpr ⟨d, hd,
          List.mem_flatMap.mpr ⟨gen, (pyRange_mem _ _).mpr ⟨hg1, hg2⟩,
            List.mem_map.mpr ⟨f, hfmem, rfl⟩⟩⟩)
  · rw [hq, List.length_cons]
    have hinner : ∀ d ∈ dirs,
        ((pyRange m.generations).flatMap (fun gen =>
          SIM_FILES.map (joinPath (genSimOut d gen)))).length
          = m.generations.toNat * SIM_FILES.length := by
      intro d _
      rw [length_flatMap_const _ _ SIM_FILES.length
        (fun gen _ => List.length_map _ _)]
      simp [pyRange]
    rw [length_flatMap_const _ _ _ hinner]
    omega

set_option maxRecDepth 100000 in
/-- Witness for C9 at the concrete two-seed, two-generation world. -/
theorem generations_coverage_witness :
    (exWorld.fetch1 METADATA_PATHNAME = true
      ∧ exWorld.metaParse = some { generations := 2, init_sims := 1, seed := 0 }
      ∧ find_successful_seed_dirs VARIANT exWorld.store ((2 : Int) - 1)
          = some ["wildtype_000000/000000/", "wildtype_000000/000001/"]
      ∧ (joinPath VARIANT SIMDATA_MODIFIED_SUBPATH ::
          (["wildtype_000000/000000/", "wildtype_000000/000001/"] : List String).flatMap
            (fun d => (pyRange 2).flatMap (fun gen =>
              SIM_FILES.map (joinPath (genSimOut d gen))))).Nodup)
    ∧ ∃ stq, build_queue exWorld (mkDownloadSims "wf" VARIANT "") = .ok (2, stq)
        ∧ stq.queue = joinPath VARIANT SIMDATA_MODIFIED_SUBPATH ::
            (["wildtype_000000/000000/", "wildtype_000000/000001/"] : List String).flatMap
              (fun d => (pyRange 2).flatMap (fun gen =>
                SIM_FILES.map (joinPath (genSimOut d gen))))
        ∧ (∀ path, path ∈ stq.queue ↔
            path = joinPath VARIANT SIMDATA_MODIFIED_SUBPATH
            ∨ ∃ d ∈ (["wildtype_000000/000000/", "wildtype_000000/000001/"] : List String),
                ∃ gen : Int, 0 ≤ gen ∧ gen < 2
                ∧ ∃ f ∈ SIM_FILES, path = joinPath (genSimOut d gen) f)
        ∧ stq.queue.length = 1 + 2 * ((2 : Int).toNat * SIM_FILES.length) :=
  ⟨⟨by decide, by decide, by decide, by decide⟩,
    generations_coverage exWorld "wf" VARIANT ""
      { generations := 2, init_sims := 1, seed := 0 }
      ["wildtype_000000/000000/", "wildtype_000000/000001/"]
      (by decide) (by decide) (by decide) (by decide)⟩

/-! ## Claim C2: queue size in the two-seed scenario -/

set_option maxRecDepth 100000 in
/-- C2 counterexample: in a world where the metadata reports
`generations = 2`, discovery finds exactly two seed directories, and the
manifest has 7 entries, the queue built before any queued transfer holds
29 paths — not 30 — and does not contain the metadata file: the metadata
file is transferred directly by `download_metadata` and is never
queued. -/
theorem queue_scenario_counterexample :
    SIM_FILES.length = 7
    ∧ exWorld.metaParse = some { generations := 2, init_sims := 1, seed := 0 }
    ∧ find_successful_seed_dirs VARIANT exWorld.store ((2 : Int) - 1)
        = some ["wildtype_000000/000000/", "wildtype_000000/000001/"]
    ∧ (match build_queue exWorld exFresh with
        | .ok (_, st) =>
            !(st.queue.length == 30) && st.queue.length == 29
              && !(st.queue.contains METADATA_PATHNAME)
        | .error _ => false) = true :=
  ⟨by decide, by decide, by decide, by decide⟩

set_option maxRecDepth 100000 in
/-- C2 as amended: in that scenario the queue built before any queued
transfer holds exactly 29 distinct paths — the per-variant simData file
plus 2 seeds × 2 generations × 7 manifest files; the metadata file is
fetched directly beforehand rather than queued, so the whole run still
transfers 30 files. -/
theorem queue_scenario_amended :
    SIM_FILES.length = 7
    ∧ exWorld.metaParse = some { generations := 2, init_sims := 1, seed := 0 }
    ∧ find_successful_seed_dirs VARIANT exWorld.store ((2 : Int) - 1)
        = some ["wildtype_000000/000000/", "wildtype_000000/000001/"]
    ∧ (match build_queue exWorld exFresh with
        | .ok (g, st) =>
            g == 2 && st.queue.length == 29 && st.queue.Nodup
              && st.queue.contains (joinPath VARIANT SIMDATA_MODIFIED_SUBPATH)
              && !(st.queue.contains METADATA_PATHNAME)
        | .error _ => false) = true
    ∧ (match download_all_needed_files exWorld exFresh with
        | .ok (n, st) => n == 30 && st.queue.isEmpty
        | .error _ => false) = true :=
  ⟨by decide, by decide, by decide, by decide, by decide⟩
